import Mathlib

/-!
Shallow embedding of the multi-tenant database core of the bookacut backend:
the connection manager (src/database/connectionManager.js), the model factory
(the dynamic per-database model cache), the auth middleware and database
resolver middleware, the customer registration flow, and the client database
provisioning service.  JavaScript `Map` objects are modelled as association
lists, connections and mongoose models as numeric identifiers allocated from
counters, and the Mongo cluster state as the list of database names that
physically exist.  Async functions are modelled in direct style (as if every
call were awaited); thrown errors become `Except` / explicit error fields.
-/

namespace BookACut

/-- Error taxonomy of src/utils/errors as used by the embedded code paths,
plus the JavaScript `TypeError` raised by reading a property off `undefined`
or calling a non-function (the un-awaited-Promise bugs in the source). -/
inductive AppError where
  | authenticationError (msg : String)
  | validationError (msg : String)
  | notFoundError (msg : String)
  | genericError (msg : String)
  | duplicateKeyError (field : String)
  | typeError (msg : String)
deriving Repr, DecidableEq

/-- `Map.get`: first binding for the key in an association list. -/
def mget {κ α : Type} [DecidableEq κ] : List (κ × α) → κ → Option α
  | [], _ => none
  | (k, v) :: rest, k0 => if k = k0 then some v else mget rest k0

/-- `Map.delete`: remove the binding of `k`. -/
def mdel {κ α : Type} [DecidableEq κ] : List (κ × α) → κ → List (κ × α)
  | [], _ => []
  | (k1, v) :: rest, k =>
      if k1 = k then mdel rest k else (k1, v) :: mdel rest k

/-- `Map.set`: bind `k` to `v`, dropping any previous binding of `k`. -/
def mset {κ α : Type} [DecidableEq κ] (m : List (κ × α)) (k : κ) (v : α) :
    List (κ × α) :=
  (k, v) :: mdel m k

/--
State of the singleton `ConnectionManager` together with the observable state
of the MongoDB cluster it talks to.
`connections` is the `Map<databaseName, connection>` (connections are numeric
handles allocated from `nextId`); `clusterDbs` is the set of database names
that physically exist in the cluster (a MongoDB database comes into existence
on its first write); `closedConns` records handles on which `close()` was
called; `initLog` records each run of `initializeClientDatabase` (the
base-collection bootstrap), newest first.
-/
structure CMState where
  connections : List (String × Nat)
  nextId : Nat
  clusterDbs : List String
  closedConns : List Nat
  initLog : List String
deriving Repr, DecidableEq

/-- `ConnectionManager.getDb`: return the cached connection if present,
otherwise create a new connection (allocating a fresh handle) and cache it.
The cache is written only after the creation finishes. -/
def getDb (s : CMState) (name : String) : Except AppError (Nat × CMState) :=
  if name = "" then
    Except.error (AppError.genericError "Database name is required")
  else
    match mget s.connections name with
    | some c => Except.ok (c, s)
    | none =>
        let c := s.nextId
        Except.ok (c, { s with connections := mset s.connections name c,
                               nextId := c + 1 })

/-- `ConnectionManager.getPlatformDb`. -/
def getPlatformDb (s : CMState) : Except AppError (Nat × CMState) :=
  getDb s "platform_db"

/-- `ConnectionManager.databaseExists`: admin-level listDatabases check. -/
def databaseExists (s : CMState) (name : String) : Bool :=
  s.clusterDbs.contains name

/-- `ConnectionManager.initializeClientDatabase`: creates the base collections
by writing (and deleting) a dummy document in each; the first write makes the
database physically exist in the cluster. -/
def initializeClientDatabaseCM (s : CMState) (name : String) : CMState :=
  { s with
    clusterDbs := if s.clusterDbs.contains name then s.clusterDbs
                  else name :: s.clusterDbs,
    initLog := name :: s.initLog }

/-- `ConnectionManager.createDatabase`: if the database already exists, return
a connection to it (skipping initialization); otherwise connect and run the
base-collection initialization. -/
def createDatabase (s : CMState) (name : String) : Except AppError (Nat × CMState) :=
  if databaseExists s name then getDb s name
  else
    match getDb s name with
    | Except.error e => Except.error e
    | Except.ok (c, s1) => Except.ok (c, initializeClientDatabaseCM s1 name)

/-- `ConnectionManager.closeDatabase`: close the cached connection for `name`
(if any) and evict it from the cache. -/
def closeDatabase (s : CMState) (name : String) : CMState :=
  match mget s.connections name with
  | none => s
  | some c =>
      { s with connections := mdel s.connections name,
               closedConns := c :: s.closedConns }

/-- Well-formedness of the manager state: every cached handle was allocated
from the counter, i.e. is below `nextId`. -/
def CMWF (s : CMState) : Prop :=
  ∀ p : String × Nat, p ∈ s.connections → p.2 < s.nextId

instance (s : CMState) : Decidable (CMWF s) := by
  unfold CMWF
  infer_instance

/--
Per-caller progress through one call of `ConnectionManager.getDb`, split at
its only suspension point (the `await mongoose.createConnection(...)`): from
`start` the caller atomically checks the cache and either returns the cached
handle or begins creating a connection (suspending); from `pending` it
finishes creation, stores the new connection in the cache, and returns its
own fresh handle.  This mirrors the source, where `this.connections.set` runs
only after the `await` completes.
-/
inductive TState where
  | start
  | pending
  | done (handle : Nat)
deriving Repr, DecidableEq

/-- One atomic section of a caller running `getDb s name`. -/
def threadStep (name : String) (s : CMState) : TState → TState × CMState
  | TState.start =>
      match mget s.connections name with
      | some c => (TState.done c, s)
      | none => (TState.pending, s)
  | TState.pending =>
      let c := s.nextId
      (TState.done c, { s with connections := mset s.connections name c,
                               nextId := c + 1 })
  | TState.done c => (TState.done c, s)

/-- Run a schedule (a list of thread indices) over concurrent `getDb name`
callers; out-of-range indices are skipped. -/
def runSched (name : String) : List Nat → List TState × CMState → List TState × CMState
  | [], st => st
  | i :: rest, (ts, s) =>
      match ts[i]? with
      | none => runSched name rest (ts, s)
      | some t =>
          let p := threadStep name s t
          runSched name rest (ts.set i p.1, p.2)

/-- An empty manager state over an empty cluster. -/
def cmEmpty : CMState :=
  { connections := [], nextId := 0, clusterDbs := [], closedConns := [],
    initLog := [] }

/-- A manager state with one cached connection (handle 0) for `a_db`. -/
def cmOne : CMState :=
  { connections := [("a_db", 0)], nextId := 1, clusterDbs := ["a_db"],
    closedConns := [], initLog := [] }

/--
State of the model factory (src/config's dynamic model cache) layered over
the connection manager.  `modelCache` is the two-level
`Map<databaseName, Map<modelName, Model>>`; `connModels` models each mongoose
connection's own `connection.models` registry; models are numeric identifiers
allocated from `nextModel`; `regLog` records every `connection.model(name,
schema)` registration event `(connection, modelName, schema)`, newest first.
Schema descriptors are opaque numeric identifiers.
-/
structure MFState where
  cm : CMState
  modelCache : List (String × List (String × Nat))
  connModels : List (Nat × List (String × Nat))
  nextModel : Nat
  regLog : List (Nat × String × Nat)
deriving Repr, DecidableEq

/-- Connection selection inside the model factory.  For `platform_db` the
source assigns `connection = connectionManager.getPlatformDb()` WITHOUT
await, so `connection` is a Promise; the following
`connection.models[modelName]` read then throws a TypeError on every call
(`connection.models` is undefined).  Nothing after that read executes, so the
branch is modelled as failing at this resolution step.  For client databases
the source properly awaits `getDb(databaseName)`. -/
def factoryConnection (cm : CMState) (db : String) :
    Except AppError (Nat × CMState) :=
  if db = "platform_db" then
    Except.error
      (AppError.typeError "Cannot read properties of undefined (reading nm)")
  else getDb cm db

/-- Body of `getModel` after the per-database cache map has been ensured;
`dbModels` is the (possibly empty) per-database model map.  Mirrors the
source: cached model, else resolve the connection (the platform branch
throws, see `factoryConnection`), else reuse a model already registered on
the connection, else register a new one and cache it. -/
def getModelCore (s : MFState) (db nm : String) (schema : Nat)
    (dbModels : List (String × Nat)) : Except AppError (Nat × MFState) :=
  match mget dbModels nm with
  | some m => Except.ok (m, s)
  | none =>
      match factoryConnection s.cm db with
      | Except.error e => Except.error e
      | Except.ok cp =>
          let c := cp.1
          let s1 := { s with cm := cp.2 }
          match mget ((mget s1.connModels c).getD []) nm with
          | some m =>
              Except.ok (m, { s1 with
                modelCache := mset s1.modelCache db (mset dbModels nm m) })
          | none =>
              let m := s1.nextModel
              Except.ok (m, { s1 with
                nextModel := m + 1,
                connModels := mset s1.connModels c
                  (mset ((mget s1.connModels c).getD []) nm m),
                regLog := (c, nm, schema) :: s1.regLog,
                modelCache := mset s1.modelCache db (mset dbModels nm m) })

/-- `getModel(databaseName, modelName, schema)` of the model factory.
(The schema argument is a mongoose `Schema` object and is always truthy, so
only the two name arguments can fail the required-arguments guard.) -/
def getModel (s : MFState) (db nm : String) (schema : Nat) :
    Except AppError (Nat × MFState) :=
  if db = "" ∨ nm = "" then
    Except.error
      (AppError.genericError "databaseName, modelName, and schema are required")
  else
    match mget s.modelCache db with
    | some dbModels => getModelCore s db nm schema dbModels
    | none =>
        getModelCore { s with modelCache := mset s.modelCache db [] }
          db nm schema []

/-- `clearModels(databaseName)` of the model factory. -/
def clearModels (s : MFState) (db : String) : MFState :=
  { s with modelCache := mdel s.modelCache db }

/-- An empty model-factory state over an empty cluster. -/
def mfEmpty : MFState :=
  { cm := cmEmpty, modelCache := [], connModels := [], nextModel := 0,
    regLog := [] }

/-- The state produced by `getModel mfEmpty "db1" "Shop" 5`: the connection
and the model were created and cached, and one registration was logged. -/
def mfShop : MFState :=
  { cm := { connections := [("db1", 0)], nextId := 1, clusterDbs := [],
            closedConns := [], initLog := [] },
    modelCache := [("db1", [("Shop", 0)])],
    connModels := [(0, [("Shop", 0)])],
    nextModel := 1,
    regLog := [(0, "Shop", 5)] }

/-- A factory state whose connection 0 (cached for `a_db`) already carries a
binding for `Shop` (model 9) while the factory cache is empty. -/
def mfReuse : MFState :=
  { cm := cmOne, modelCache := [], connModels := [(0, [("Shop", 9)])],
    nextModel := 10, regLog := [] }

/-- JavaScript truthiness for an optional string: absent and `""` are falsy. -/
def strTruthy : Option String → Option String
  | some s => if s = "" then none else some s
  | none => none

/-- The JavaScript `a || b` idiom over two optional strings. -/
def jsOr (a b : Option String) : Option String :=
  match strTruthy a with
  | some v => some v
  | none => strTruthy b

/-- JavaScript `String.prototype.toLowerCase`, modelled character-wise. -/
def strLower (s : String) : String :=
  String.mk (s.data.map Char.toLower)

/-- Payload of a verified JWT (`jwt.verify` output) as read by the auth
middleware: the role and the optional databaseName claim. -/
structure Decoded where
  role : String
  databaseName : Option String
deriving Repr, DecidableEq

/-- The `if (!connection.models[X]) connection.model(X, schema)` pattern:
register the named model on the given connection unless the connection
already carries a binding under that name.  In the source the platform model
getters never reach this read (they throw a TypeError first, see
`getPlatformAdminModel`); it is used only by the as-if-awaited reading of
the provisioning steps (`provStepWriteClientAdminAwaited`,
`provStepWriteDbMapAwaited`), where the missing await is taken as repaired. -/
def bindOnConnection (s : MFState) (c : Nat) (nm : String) (schema : Nat) :
    Nat × MFState :=
  match mget ((mget s.connModels c).getD []) nm with
  | some m => (m, s)
  | none =>
      let m := s.nextModel
      (m, { s with nextModel := m + 1,
                   connModels := mset s.connModels c
                     (mset ((mget s.connModels c).getD []) nm m),
                   regLog := (c, nm, schema) :: s.regLog })

/-- Opaque schema descriptor for the platform admin schema. -/
def platformAdminSchemaId : Nat := 1

/-- Opaque schema descriptor for the client-side user schema. -/
def userSchemaId : Nat := 2

/-- `getPlatformAdminModel()` of PlatformAdmin.js: it calls
`connectionManager.getPlatformDb()` WITHOUT await, so `connection` is a
Promise and the immediate `connection.models.PlatformAdmin` read throws a
TypeError on every call.  (The un-awaited `getDb` may create the platform
connection in the background; no claim observes that cache entry, so the
in-flight task is elided.) -/
def getPlatformAdminModel : Except AppError Nat :=
  Except.error
    (AppError.typeError
      "Cannot read properties of undefined (reading PlatformAdmin)")

/-- `getClientAdminModel()` of ClientAdmin.js: same missing await on
`getPlatformDb()`, so `connection.models.ClientAdmin` throws a TypeError on
every call and `ClientAdmin.create` is never reached. -/
def getClientAdminModel : Except AppError Nat :=
  Except.error
    (AppError.typeError
      "Cannot read properties of undefined (reading ClientAdmin)")

/-- `getClientDatabaseMapModel()` of ClientDatabaseMap.js: same missing
await, so `connection.models.ClientDatabaseMap` throws a TypeError on every
call and `ClientDatabaseMap.create` is never reached. -/
def getClientDatabaseMapModel : Except AppError Nat :=
  Except.error
    (AppError.typeError
      "Cannot read properties of undefined (reading ClientDatabaseMap)")

/--
The `authenticate` middleware (database-resolution core).  The platform path
calls `getPlatformAdminModel()`, which throws a TypeError on every call
(missing await, see `getPlatformAdminModel`); the dead code after it is kept
as the match's ok-branch.  On the tenant path, after the databaseName guard
and the awaited `getDb`, the source calls `getModel(...)` WITHOUT await and
then `User.findById` on the resulting Promise, throwing a TypeError (the
un-awaited call's eventual cache effects are elided — no claim observes
them).  Returns the resolved `(role, databaseName)` or the thrown error,
together with the final registry state (errors thrown before any registry
operation leave the state untouched).
-/
def authenticate (d : Decoded) (s : MFState) :
    Except AppError (String × String) × MFState :=
  if d.role = "platform_super_admin" then
    match getPlatformAdminModel with
    | Except.error e => (Except.error e, s)
    | Except.ok _ => (Except.ok ("platform_super_admin", "platform_db"), s)
  else
    match strTruthy d.databaseName with
    | none =>
        (Except.error
          (AppError.authenticationError "Database name not found in token"), s)
    | some db =>
        match getDb s.cm db with
        | Except.error e => (Except.error e, s)
        | Except.ok cp =>
            (Except.error
              (AppError.typeError "User.findById is not a function"),
              { s with cm := cp.2 })

/-- The `req.user` object as seen by the database resolver middleware. -/
structure ReqUser where
  role : String
  databaseName : Option String
  dbName : Option String
deriving Repr, DecidableEq

/-- Final branch of `resolveDatabase`: no usable user, so a databaseName
taken from the request body or query is passed straight to `getDb` (with no
existence check). -/
def resolveNoUser (bodyDb queryDb : Option String) (s : CMState) :
    Except AppError (Nat × String) × CMState :=
  match jsOr bodyDb queryDb with
  | some db =>
      match getDb s db with
      | Except.error e => (Except.error e, s)
      | Except.ok cp => (Except.ok (cp.1, db), cp.2)
  | none =>
      (Except.error
        (AppError.authenticationError "Unable to resolve database for request"),
        s)

/--
The `resolveDatabase` middleware: platform admins get the platform database;
tenant roles (client_admin, staff, customer) get the name carried by
`req.user.databaseName || req.user.dbName` or an `AuthenticationError` when
both are falsy; any other request falls through to the body/query branch.
Returns the resolved `(connection, databaseName)` or the thrown error,
together with the final manager state.
-/
def resolveDatabase (user : Option ReqUser) (bodyDb queryDb : Option String)
    (s : CMState) : Except AppError (Nat × String) × CMState :=
  match user with
  | some u =>
      if u.role = "platform_super_admin" then
        match getPlatformDb s with
        | Except.error e => (Except.error e, s)
        | Except.ok cp => (Except.ok (cp.1, "platform_db"), cp.2)
      else if u.role = "client_admin" || u.role = "staff" ||
          u.role = "customer" then
        match jsOr u.databaseName u.dbName with
        | none =>
            (Except.error
              (AppError.authenticationError
                "Database name not found in user token"), s)
        | some db =>
            match getDb s db with
            | Except.error e => (Except.error e, s)
            | Except.ok cp => (Except.ok (cp.1, db), cp.2)
      else resolveNoUser bodyDb queryDb s
  | none => resolveNoUser bodyDb queryDb s

/-- Opaque schema descriptor for the client-side role schema. -/
def roleSchemaId : Nat := 3

/-- Opaque schema descriptor for the platform ClientAdmin schema. -/
def clientAdminSchemaId : Nat := 4

/-- Opaque schema descriptor for the platform ClientDatabaseMap schema. -/
def clientDbMapSchemaId : Nat := 5

/-- A ClientAdmin document in platform_db (claim-relevant fields; `email`,
`databaseName` and `clientId` each carry a unique index). -/
structure ClientAdminRec where
  clientId : String
  databaseName : String
  email : String
deriving Repr, DecidableEq

/-- A ClientDatabaseMap document in platform_db (`clientId` and
`databaseName` each carry a unique index). -/
structure DbMapRec where
  clientId : String
  databaseName : String
deriving Repr, DecidableEq

/-- Owner profile handed to provisioning (and customer signup data). -/
structure OwnerData where
  email : String
  firstName : String
  lastName : String
  phone : String
  password : String
deriving Repr, DecidableEq

/-- Whole-application state: the model factory (which embeds the connection
manager), the platform database's ClientAdmin and ClientDatabaseMap
collections, and each client database's users (by email) and roles (by
name). -/
structure AppState where
  mf : MFState
  clientAdmins : List ClientAdminRec
  dbMaps : List DbMapRec
  dbUsers : List (String × List String)
  dbRoles : List (String × List String)
deriving Repr, DecidableEq

/-- `ClientAdmin.create`: insert into platform_db, enforcing the unique
indexes (a duplicate raises a duplicate-key error). -/
def clientAdminCreate (st : AppState) (r : ClientAdminRec) :
    Except AppError AppState :=
  if st.clientAdmins.any (fun a => a.email = r.email) then
    Except.error (AppError.duplicateKeyError "email")
  else if st.clientAdmins.any (fun a => a.databaseName = r.databaseName) then
    Except.error (AppError.duplicateKeyError "databaseName")
  else if st.clientAdmins.any (fun a => a.clientId = r.clientId) then
    Except.error (AppError.duplicateKeyError "clientId")
  else Except.ok { st with clientAdmins := r :: st.clientAdmins }

/-- `ClientDatabaseMap.create`: insert into platform_db, enforcing the unique
indexes. -/
def dbMapCreate (st : AppState) (r : DbMapRec) : Except AppError AppState :=
  if st.dbMaps.any (fun a => a.clientId = r.clientId) then
    Except.error (AppError.duplicateKeyError "clientId")
  else if st.dbMaps.any (fun a => a.databaseName = r.databaseName) then
    Except.error (AppError.duplicateKeyError "databaseName")
  else Except.ok { st with dbMaps := r :: st.dbMaps }

/-- `Role.findOne` / `Role.create` pattern: ensure the named role exists. -/
def roleEnsure (roles : List String) (r : String) : List String :=
  if roles.contains r then roles else r :: roles

/-- `generateDatabaseName`: `client_{uniqueId}_db`, with the random hex
identifier supplied as an oracle argument. -/
def generateDatabaseName (hex : String) : String :=
  "client_" ++ hex ++ "_db"

/-- Provisioning step 1: `connectionManager.createDatabase(databaseName)`. -/
def provStepCreateDb (db : String) (st : AppState) : Except AppError AppState :=
  match createDatabase st.mf.cm db with
  | Except.error e => Except.error e
  | Except.ok cp => Except.ok { st with mf := { st.mf with cm := cp.2 } }

/-- Provisioning step 2, `ClientDatabaseService.initializeClientDatabase`:
bind the User and Role models for the new database, ensure the three system
roles, and create the owner's administrative user (the user email carries a
unique index inside the client database). -/
def serviceInitClientDb (db : String) (o : OwnerData) (st : AppState) :
    Except AppError AppState :=
  match getModel st.mf db "User" userSchemaId with
  | Except.error e => Except.error e
  | Except.ok up =>
      match getModel up.2 db "Role" roleSchemaId with
      | Except.error e => Except.error e
      | Except.ok rp =>
          let roles0 := (mget st.dbRoles db).getD []
          let roles1 :=
            roleEnsure (roleEnsure (roleEnsure roles0 "client_admin") "staff")
              "customer"
          let users0 := (mget st.dbUsers db).getD []
          if users0.contains (strLower o.email) then
            Except.error (AppError.duplicateKeyError "email")
          else
            Except.ok { st with
              mf := rp.2,
              dbRoles := mset st.dbRoles db roles1,
              dbUsers := mset st.dbUsers db (strLower o.email :: users0) }

/-- Provisioning step 3 as the source executes it: `getClientAdminModel()`
throws a TypeError on every call (missing await on `getPlatformDb`, see
`getClientAdminModel`), so the `ClientAdmin.create` kept in the ok-branch is
dead code and the step always fails with that TypeError, leaving the state
untouched. -/
def provStepWriteClientAdmin (cid db : String) (o : OwnerData)
    (st : AppState) : Except AppError AppState :=
  match getClientAdminModel with
  | Except.error e => Except.error e
  | Except.ok _ =>
      clientAdminCreate st
        { clientId := cid, databaseName := db, email := strLower o.email }

/-- Provisioning step 4 as the source executes it: `getClientDatabaseMapModel()`
throws a TypeError on every call (missing await), so the
`ClientDatabaseMap.create` in the ok-branch is dead code. -/
def provStepWriteDbMap (cid db : String) (st : AppState) :
    Except AppError AppState :=
  match getClientDatabaseMapModel with
  | Except.error e => Except.error e
  | Except.ok _ =>
      dbMapCreate st { clientId := cid, databaseName := db }

/-- Provisioning step 3 under the as-if-awaited reading (the spec's intended
semantics, with the missing await on `getPlatformDb` taken as repaired):
resolve the platform connection, register the ClientAdmin model on it unless
already bound, then `ClientAdmin.create`.  Used only to state the
mapping-write-is-last safety property non-vacuously; the faithful step is
`provStepWriteClientAdmin`. -/
def provStepWriteClientAdminAwaited (cid db : String) (o : OwnerData)
    (st : AppState) : Except AppError AppState :=
  match getPlatformDb st.mf.cm with
  | Except.error e => Except.error e
  | Except.ok cp =>
      let bp := bindOnConnection { st.mf with cm := cp.2 } cp.1 "ClientAdmin"
        clientAdminSchemaId
      clientAdminCreate { st with mf := bp.2 }
        { clientId := cid, databaseName := db, email := strLower o.email }

/-- Provisioning step 4 under the as-if-awaited reading: resolve the platform
connection, register the ClientDatabaseMap model, then
`ClientDatabaseMap.create` — the tenantId→databaseName mapping write.  The
faithful step is `provStepWriteDbMap`. -/
def provStepWriteDbMapAwaited (cid db : String) (st : AppState) :
    Except AppError AppState :=
  match getPlatformDb st.mf.cm with
  | Except.error e => Except.error e
  | Except.ok cp =>
      let bp := bindOnConnection { st.mf with cm := cp.2 } cp.1
        "ClientDatabaseMap" clientDbMapSchemaId
      dbMapCreate { st with mf := bp.2 }
        { clientId := cid, databaseName := db }

/-- The provisioning steps of `createClientDatabase`, in source order. -/
inductive ProvStep where
  | createDb
  | initClientDb
  | writeClientAdmin
  | writeDbMap
deriving Repr, DecidableEq

/-- The full step sequence of `createClientDatabase`. -/
def provSteps : List ProvStep :=
  [ProvStep.createDb, ProvStep.initClientDb, ProvStep.writeClientAdmin,
   ProvStep.writeDbMap]

/-- Dispatch one provisioning step (faithful semantics). -/
def runProvStep (cid db : String) (o : OwnerData) (st : AppState) :
    ProvStep → Except AppError AppState
  | ProvStep.createDb => provStepCreateDb db st
  | ProvStep.initClientDb => serviceInitClientDb db o st
  | ProvStep.writeClientAdmin => provStepWriteClientAdmin cid db o st
  | ProvStep.writeDbMap => provStepWriteDbMap cid db st

/-- Dispatch one provisioning step under the as-if-awaited reading. -/
def runProvStepAwaited (cid db : String) (o : OwnerData) (st : AppState) :
    ProvStep → Except AppError AppState
  | ProvStep.createDb => provStepCreateDb db st
  | ProvStep.initClientDb => serviceInitClientDb db o st
  | ProvStep.writeClientAdmin => provStepWriteClientAdminAwaited cid db o st
  | ProvStep.writeDbMap => provStepWriteDbMapAwaited cid db st

/-- Run provisioning steps in order (faithful semantics).  A thrown error
aborts the remaining steps, but side effects already persisted stay (the
state at the failure point is returned alongside the error). -/
def runProvSteps (cid db : String) (o : OwnerData) :
    List ProvStep → AppState → AppState × Option AppError
  | [], st => (st, none)
  | stp :: rest, st =>
      match runProvStep cid db o st stp with
      | Except.error e => (st, some e)
      | Except.ok st2 => runProvSteps cid db o rest st2

/-- Run provisioning steps in order under the as-if-awaited reading. -/
def runProvStepsAwaited (cid db : String) (o : OwnerData) :
    List ProvStep → AppState → AppState × Option AppError
  | [], st => (st, none)
  | stp :: rest, st =>
      match runProvStepAwaited cid db o st stp with
      | Except.error e => (st, some e)
      | Except.ok st2 => runProvStepsAwaited cid db o rest st2

/-- `ClientDatabaseService.createClientDatabase` (faithful semantics), with
the two `crypto.randomBytes` outputs (client id and database-name hex)
supplied as oracle arguments.  Returns the generated database name, the
final state, and the error if one was thrown. -/
def createClientDatabase (cid hex : String) (o : OwnerData) (st : AppState) :
    (String × AppState) × Option AppError :=
  let db := generateDatabaseName hex
  let r := runProvSteps cid db o provSteps st
  ((db, r.1), r.2)

/--
`registerCustomer` (validation and database-resolution core): require all
fields, verify the database exists, connect, bind the User and Role models,
reject an existing user, ensure the customer role, create the user.  Returns
the databaseName echoed on success (token generation elided) together with
the final state.
-/
def registerCustomer (email password phone firstName lastName dbn :
    Option String) (st : AppState) : Except AppError String × AppState :=
  match strTruthy email, strTruthy password, strTruthy phone,
      strTruthy firstName, strTruthy lastName, strTruthy dbn with
  | some em, some _, some _, some _, some _, some db =>
      if databaseExists st.mf.cm db = false then
        (Except.error (AppError.notFoundError "Client database"), st)
      else
        match getDb st.mf.cm db with
        | Except.error e => (Except.error e, st)
        | Except.ok cp =>
            let st1 := { st with mf := { st.mf with cm := cp.2 } }
            match getModel st1.mf db "User" userSchemaId with
            | Except.error e => (Except.error e, st1)
            | Except.ok up =>
                match getModel up.2 db "Role" roleSchemaId with
                | Except.error e => (Except.error e, { st1 with mf := up.2 })
                | Except.ok rp =>
                    let st2 := { st1 with mf := rp.2 }
                    let users := (mget st2.dbUsers db).getD []
                    if users.contains (strLower em) then
                      (Except.error
                        (AppError.validationError "User already exists"), st2)
                    else
                      (Except.ok db, { st2 with
                        dbRoles := mset st2.dbRoles db
                          (roleEnsure ((mget st2.dbRoles db).getD [])
                            "customer"),
                        dbUsers := mset st2.dbUsers db (strLower em :: users) })
  | _, _, _, _, _, _ =>
      (Except.error (AppError.validationError "All fields are required"), st)

/-- The three-fold role bootstrap of the provisioning service. -/
def provRoles (roles0 : List String) : List String :=
  roleEnsure (roleEnsure (roleEnsure roles0 "client_admin") "staff") "customer"

/-- The tenant database `db` is fully initialized: it physically exists in
the cluster, carries the three system roles, and holds the owner's
administrative account. -/
def fullyInitialized (st : AppState) (db : String) (o : OwnerData) : Prop :=
  st.mf.cm.clusterDbs.contains db = true ∧
  ((mget st.dbRoles db).getD []).contains "client_admin" = true ∧
  ((mget st.dbRoles db).getD []).contains "staff" = true ∧
  ((mget st.dbRoles db).getD []).contains "customer" = true ∧
  ((mget st.dbUsers db).getD []).contains (strLower o.email) = true

/-- Concrete owner profile used by the counterexamples and witnesses. -/
def ownerEx : OwnerData :=
  { email := "Owner@X.com", firstName := "A", lastName := "B", phone := "1",
    password := "p" }

/-- Empty application state over an empty cluster. -/
def appEmpty : AppState :=
  { mf := mfEmpty, clientAdmins := [], dbMaps := [], dbUsers := [],
    dbRoles := [] }

/-- Application state whose cluster already holds `client_aa11_db`. -/
def appCol : AppState :=
  { mf := { cm := { connections := [], nextId := 0,
                    clusterDbs := ["client_aa11_db"], closedConns := [],
                    initLog := [] },
            modelCache := [], connModels := [], nextModel := 0,
            regLog := [] },
    clientAdmins := [], dbMaps := [], dbUsers := [], dbRoles := [] }

theorem mget_mset {κ α : Type} [DecidableEq κ] (m : List (κ × α)) (k : κ) (v : α) :
    mget (mset m k v) k = some v := by
  simp [mget, mset]

theorem mget_mdel {κ α : Type} [DecidableEq κ] (m : List (κ × α)) (k : κ) :
    mget (mdel m k) k = none := by
  induction m with
  | nil => rfl
  | cons p rest ih =>
      cases p with
      | mk k1 v1 =>
          by_cases hp : k1 = k
          · simpa [mdel, hp] using ih
          · simpa [mdel, hp, mget] using ih

theorem mget_mdel_ne {κ α : Type} [DecidableEq κ] (m : List (κ × α)) (k k0 : κ)
    (h : k ≠ k0) : mget (mdel m k) k0 = mget m k0 := by
  induction m with
  | nil => rfl
  | cons p rest ih =>
      cases p with
      | mk k1 v1 =>
          by_cases hp : k1 = k
          · simpa [mdel, hp, mget, h] using ih
          · by_cases hp0 : k1 = k0
            · simp [mdel, hp, mget, hp0, Ne.symm h]
            · simpa [mdel, hp, mget, hp0] using ih

theorem mget_mset_ne {κ α : Type} [DecidableEq κ] (m : List (κ × α)) (k k0 : κ)
    (v : α) (h : k ≠ k0) : mget (mset m k v) k0 = mget m k0 := by
  unfold mset
  rw [show mget ((k, v) :: mdel m k) k0 = mget (mdel m k) k0 by simp [mget, h]]
  exact mget_mdel_ne m k k0 h

theorem mget_mem {κ α : Type} [DecidableEq κ] (m : List (κ × α)) (k : κ) (v : α)
    (h : mget m k = some v) : (k, v) ∈ m := by
  induction m with
  | nil => simp [mget] at h
  | cons p rest ih =>
      cases p with
      | mk k1 v1 =>
          by_cases hp : k1 = k
          · simp [mget, hp] at h
            subst hp
            subst h
            exact List.mem_cons_self _ _
          · simp [mget, hp] at h
            exact List.mem_cons_of_mem _ (ih h)

theorem getDb_preserves (s : CMState) (name : String) (c : Nat) (s1 : CMState)
    (h : getDb s name = Except.ok (c, s1)) :
    s1.clusterDbs = s.clusterDbs ∧ s1.initLog = s.initLog ∧
      s1.closedConns = s.closedConns := by
  unfold getDb at h
  by_cases hn : name = ""
  · simp [hn] at h
  · simp only [hn, if_false] at h
    cases hm : mget s.connections name <;> rw [hm] at h <;>
      simp only [Except.ok.injEq, Prod.mk.injEq] at h <;>
      rcases h with ⟨h1, h2⟩ <;> subst h2 <;> simp

theorem getDb_ok (s : CMState) (name : String) (hn : name ≠ "") :
    ∃ c s1, getDb s name = Except.ok (c, s1) := by
  unfold getDb
  simp only [hn, if_false]
  cases hm : mget s.connections name
  · exact ⟨s.nextId, _, rfl⟩
  · exact ⟨_, s, rfl⟩

/--
Claim C9: after `closeDatabase` (eviction), the cache entry for the name is
gone, and the next `getDb` for that name succeeds with a connection handle
different from the evicted one (a fresh connection, not the stale or closed
handle), which is then cached.
-/
theorem closeDatabase_then_getDb_fresh (s : CMState) (name : String) (c : Nat)
    (hwf : CMWF s) (hn : name ≠ "") (hc : mget s.connections name = some c) :
    mget (closeDatabase s name).connections name = none ∧
    ∃ c2 s2, getDb (closeDatabase s name) name = Except.ok (c2, s2) ∧
      c2 ≠ c ∧ mget s2.connections name = some c2 := by
  have hlt : c < s.nextId := hwf (name, c) (mget_mem s.connections name c hc)
  have hclose : closeDatabase s name =
      { s with connections := mdel s.connections name,
               closedConns := c :: s.closedConns } := by
    unfold closeDatabase
    rw [hc]
  refine ⟨?_, s.nextId,
    { s with connections := mset (mdel s.connections name) name s.nextId,
             nextId := s.nextId + 1,
             closedConns := c :: s.closedConns }, ?_, ?_, ?_⟩
  · rw [hclose]
    exact mget_mdel s.connections name
  · rw [hclose]
    simp [getDb, hn, mget_mdel]
  · exact ne_of_gt hlt
  · exact mget_mset (mdel s.connections name) name s.nextId

/-- Witness for C9 on a concrete one-connection state. -/
theorem closeDatabase_then_getDb_fresh_witness :
    mget (closeDatabase cmOne "a_db").connections "a_db" = none ∧
    ∃ c2 s2, getDb (closeDatabase cmOne "a_db") "a_db" = Except.ok (c2, s2) ∧
      c2 ≠ 0 ∧ mget s2.connections "a_db" = some c2 :=
  closeDatabase_then_getDb_fresh cmOne "a_db" 0 (by decide) (by decide) (by decide)

/--
Claim C10: `createDatabase` on a name that already exists in the cluster does
not fail and does not create a second database: it behaves exactly like
`getDb` (returning a connection bound to the existing database), leaves the
set of physically existing databases unchanged, and skips the base-collection
initialization step entirely (the initialization log is untouched).
-/
theorem createDatabase_existing_attaches (s : CMState) (name : String)
    (hex : databaseExists s name = true) (hn : name ≠ "") :
    createDatabase s name = getDb s name ∧
    ∃ c s1, getDb s name = Except.ok (c, s1) ∧
      s1.clusterDbs = s.clusterDbs ∧ s1.initLog = s.initLog := by
  refine ⟨by simp [createDatabase, hex], ?_⟩
  obtain ⟨c, s1, h⟩ := getDb_ok s name hn
  obtain ⟨h1, h2, _⟩ := getDb_preserves s name c s1 h
  exact ⟨c, s1, h, h1, h2⟩

/-- Witness for C10 on a concrete state whose cluster already holds `a_db`. -/
theorem createDatabase_existing_attaches_witness :
    createDatabase cmOne "a_db" = getDb cmOne "a_db" ∧
    ∃ c s1, getDb cmOne "a_db" = Except.ok (c, s1) ∧
      s1.clusterDbs = cmOne.clusterDbs ∧ s1.initLog = cmOne.initLog :=
  createDatabase_existing_attaches cmOne "a_db" (by decide) (by decide)

/--
Claim C5 counterexample: two concurrent first-time `getDb` callers for the
never-before-seen name `db_x`, interleaved so that both check the cache
before either finishes creating (schedule 0,1,0,1), end with two distinct
handles (0 and 1) while the connection counter advanced by two — two
underlying connections were created, not one, because the in-progress
creation is not cached.
-/
theorem getDb_concurrent_two_connections :
    (runSched "db_x" [0, 1, 0, 1]
        ([TState.start, TState.start], cmEmpty)).1 =
      [TState.done 0, TState.done 1] ∧
    (0 : Nat) ≠ 1 ∧
    (runSched "db_x" [0, 1, 0, 1]
        ([TState.start, TState.start], cmEmpty)).2.nextId = cmEmpty.nextId + 2 := by
  decide

/--
Claim C5 amended: the cache is written only after connection creation
finishes, so the single-flight guarantee holds only once a creation has
settled: (1) a lone caller for a fresh name creates exactly one connection
and caches it; (2) any caller that starts while the finished handle is cached
observes that identical handle and creates nothing.  (Overlapping first-time
callers can each create a connection, as the counterexample shows.)
-/
theorem getDb_single_flight_after_settle :
    (∀ s name, name ≠ "" → mget s.connections name = none →
      ∃ s2, runSched name [0, 0] ([TState.start], s) =
          ([TState.done s.nextId], s2) ∧
        s2.nextId = s.nextId + 1 ∧
        mget s2.connections name = some s.nextId) ∧
    (∀ s name c, mget s.connections name = some c →
      threadStep name s TState.start = (TState.done c, s)) := by
  constructor
  · intro s name _ hnone
    refine ⟨{ s with connections := mset s.connections name s.nextId,
                     nextId := s.nextId + 1 }, ?_, rfl, ?_⟩
    · simp [runSched, threadStep, hnone]
    · exact mget_mset s.connections name s.nextId
  · intro s name c hc
    unfold threadStep
    rw [hc]

/-- Every successful `getModelCore` leaves the model cached under
`(db, nm)` in the resulting state, provided the per-database map it was
handed is the one the cache holds. -/
theorem getModelCore_caches (s : MFState) (db nm : String) (schema : Nat)
    (dbModels : List (String × Nat)) (m : Nat) (s2 : MFState)
    (hcache : mget s.modelCache db = some dbModels)
    (h : getModelCore s db nm schema dbModels = Except.ok (m, s2)) :
    ∃ l, mget s2.modelCache db = some l ∧ mget l nm = some m := by
  unfold getModelCore at h
  cases hhit : mget dbModels nm with
  | some m0 =>
      rw [hhit] at h
      simp only [Except.ok.injEq, Prod.mk.injEq] at h
      obtain ⟨h1, h2⟩ := h
      subst h2
      exact ⟨dbModels, hcache, by rw [hhit, h1]⟩
  | none =>
      rw [hhit] at h
      cases hconn : factoryConnection s.cm db with
      | error e => rw [hconn] at h; exact absurd h (by simp)
      | ok cp =>
          rw [hconn] at h
          simp only at h
          cases hreuse : mget ((mget s.connModels cp.1).getD []) nm with
          | some b =>
              rw [hreuse] at h
              simp only [Except.ok.injEq, Prod.mk.injEq] at h
              obtain ⟨h1, h2⟩ := h
              subst h2
              refine ⟨mset dbModels nm b, ?_, ?_⟩
              · exact mget_mset _ db _
              · rw [mget_mset, h1]
          | none =>
              rw [hreuse] at h
              simp only [Except.ok.injEq, Prod.mk.injEq] at h
              obtain ⟨h1, h2⟩ := h
              subst h2
              refine ⟨mset dbModels nm s.nextModel, ?_, ?_⟩
              · exact mget_mset _ db _
              · rw [mget_mset, h1]

/-- Every successful `getModel` leaves the model cached under `(db, nm)`. -/
theorem getModel_caches (s : MFState) (db nm : String) (schema : Nat)
    (m : Nat) (s2 : MFState)
    (h : getModel s db nm schema = Except.ok (m, s2)) :
    ∃ l, mget s2.modelCache db = some l ∧ mget l nm = some m := by
  unfold getModel at h
  by_cases hguard : db = "" ∨ nm = ""
  · rw [if_pos hguard] at h
    exact absurd h (by simp)
  · rw [if_neg hguard] at h
    cases hdb : mget s.modelCache db with
    | some dbModels =>
        rw [hdb] at h
        exact getModelCore_caches s db nm schema dbModels m s2 hdb h
    | none =>
        rw [hdb] at h
        refine getModelCore_caches _ db nm schema [] m s2 ?_ h
        exact mget_mset s.modelCache db []

/-- When its per-database map misses but the resolved connection already
carries a binding, `getModelCore` reuses that binding: it returns it, caches
it, and performs no registration (the log is untouched). -/
theorem getModelCore_reuse (s : MFState) (db nm : String) (schema : Nat)
    (dbModels : List (String × Nat)) (c : Nat) (cm2 : CMState) (b : Nat)
    (hmiss : mget dbModels nm = none)
    (hconn : factoryConnection s.cm db = Except.ok (c, cm2))
    (hbind : mget ((mget s.connModels c).getD []) nm = some b) :
    getModelCore s db nm schema dbModels =
      Except.ok (b,
        { s with cm := cm2,
                 modelCache := mset s.modelCache db (mset dbModels nm b) }) := by
  unfold getModelCore
  rw [hmiss, hconn]
  simp only
  rw [hbind]

/-- Successful `getModel` calls never fail the required-arguments guard. -/
theorem getModel_ok_names (s : MFState) (db nm : String) (schema : Nat)
    (m : Nat) (s2 : MFState)
    (h : getModel s db nm schema = Except.ok (m, s2)) :
    ¬(db = "" ∨ nm = "") := by
  intro hguard
  unfold getModel at h
  rw [if_pos hguard] at h
  exact absurd h (by simp)

/--
Claim C1: `getModel` is idempotent and never re-registers.  First part: once
a call for `(db, nm)` has succeeded with model `m` and state `s2`, any
repeated call for the same pair — even with a different schema descriptor —
returns the very same model `m` and leaves the state (hence the registration
log and the connection's model registry) entirely unchanged.  Second part:
when the cache misses but the resolved connection already carries a binding
under `nm`, that binding is returned and reused, and no registration event is
emitted.
-/
theorem getModel_idempotent_no_reregister :
    (∀ s db nm schema schema2 m s2,
      getModel s db nm schema = Except.ok (m, s2) →
      getModel s2 db nm schema2 = Except.ok (m, s2)) ∧
    (∀ s db nm schema c cm2 b,
      mget ((mget s.modelCache db).getD []) nm = none →
      ¬(db = "" ∨ nm = "") →
      factoryConnection s.cm db = Except.ok (c, cm2) →
      mget ((mget s.connModels c).getD []) nm = some b →
      ∃ s2, getModel s db nm schema = Except.ok (b, s2) ∧
        s2.regLog = s.regLog) := by
  constructor
  · intro s db nm schema schema2 m s2 h
    have hguard := getModel_ok_names s db nm schema m s2 h
    obtain ⟨l, hl, hm⟩ := getModel_caches s db nm schema m s2 h
    unfold getModel
    rw [if_neg hguard, hl]
    show getModelCore s2 db nm schema2 l = Except.ok (m, s2)
    unfold getModelCore
    rw [hm]
  · intro s db nm schema c cm2 b hmiss hguard hconn hbind
    unfold getModel
    rw [if_neg hguard]
    cases hdb : mget s.modelCache db with
    | some dbModels =>
        have hmiss2 : mget dbModels nm = none := by
          rw [hdb] at hmiss
          simpa using hmiss
        refine ⟨{ s with
                  cm := cm2,
                  modelCache := mset s.modelCache db (mset dbModels nm b) },
          ?_, rfl⟩
        show getModelCore s db nm schema dbModels = _
        exact getModelCore_reuse s db nm schema dbModels c cm2 b hmiss2 hconn hbind
    | none =>
        refine ⟨{ s with
                  cm := cm2,
                  modelCache := mset (mset s.modelCache db []) db
                    (mset [] nm b) },
          ?_, rfl⟩
        show getModelCore { s with modelCache := mset s.modelCache db [] }
            db nm schema [] = _
        exact getModelCore_reuse _ db nm schema [] c cm2 b rfl hconn hbind

/-- Witness for C1: a first call on an empty factory state registers the
model, and the repeated call with a different schema returns the identical
model and state; a state whose connection already holds a binding reuses it
without registering. -/
theorem getModel_idempotent_no_reregister_witness :
    (getModel mfEmpty "db1" "Shop" 5 = Except.ok (0, mfShop) ∧
     getModel mfShop "db1" "Shop" 7 = Except.ok (0, mfShop)) ∧
    (∃ s2, getModel mfReuse "a_db" "Shop" 5 = Except.ok (9, s2) ∧
      s2.regLog = mfReuse.regLog) := by
  constructor
  · constructor
    · rfl
    · exact getModel_idempotent_no_reregister.1 mfEmpty "db1" "Shop" 5 7 0
        mfShop rfl
  · exact getModel_idempotent_no_reregister.2 mfReuse "a_db" "Shop" 5 0 cmOne 9
      rfl (by decide) rfl rfl

/--
Claim C2: a tenant-role credential whose verified token lacks a (truthy)
databaseName claim fails with `AuthenticationError` in the authenticate
middleware before any connection work — the registry state is returned
unchanged, so zero `getDb` calls occurred and there is no fallback to any
default database; likewise the resolver middleware for a tenant-role user
with no databaseName.
-/
theorem tenant_missing_dbname_fails_closed :
    (∀ d s, d.role ≠ "platform_super_admin" →
      strTruthy d.databaseName = none →
      authenticate d s =
        (Except.error
          (AppError.authenticationError "Database name not found in token"),
          s)) ∧
    (∀ u b q s,
      (u.role = "client_admin" ∨ u.role = "staff" ∨ u.role = "customer") →
      jsOr u.databaseName u.dbName = none →
      resolveDatabase (some u) b q s =
        (Except.error
          (AppError.authenticationError
            "Database name not found in user token"), s)) := by
  constructor
  · intro d s hrole hdb
    unfold authenticate
    rw [if_neg hrole, hdb]
  · intro u b q s hrole hjs
    rcases hrole with h | h | h <;>
      simp [resolveDatabase, h, hjs]

/-- Witness for C2 at a concrete staff token with no databaseName claim. -/
theorem tenant_missing_dbname_fails_closed_witness :
    authenticate { role := "staff", databaseName := none } mfEmpty =
      (Except.error
        (AppError.authenticationError "Database name not found in token"),
        mfEmpty) ∧
    resolveDatabase
        (some { role := "customer", databaseName := none, dbName := none })
        none none cmEmpty =
      (Except.error
        (AppError.authenticationError "Database name not found in user token"),
        cmEmpty) :=
  ⟨tenant_missing_dbname_fails_closed.1
      { role := "staff", databaseName := none } mfEmpty
      (by decide) rfl,
   tenant_missing_dbname_fails_closed.2
      { role := "customer", databaseName := none, dbName := none }
      none none cmEmpty (Or.inr (Or.inr rfl)) rfl⟩

/--
Claim C4: the resolver maps a platform_super_admin credential to exactly the
sentinel name `platform_db`, and a tenant-role credential carrying
databaseName `n` to exactly `n`; resolution succeeds for every such
credential whose carried name is non-empty (as every onboarded tenant's name
is).
-/
theorem resolver_database_names :
    (∀ u b q s, u.role = "platform_super_admin" →
      ∃ c s2, resolveDatabase (some u) b q s =
        (Except.ok (c, "platform_db"), s2)) ∧
    (∀ u b q s n,
      (u.role = "client_admin" ∨ u.role = "staff" ∨ u.role = "customer") →
      u.databaseName = some n → n ≠ "" →
      ∃ c s2, resolveDatabase (some u) b q s = (Except.ok (c, n), s2)) := by
  constructor
  · intro u b q s hr
    obtain ⟨c, s2, hget⟩ := getDb_ok s "platform_db" (by decide)
    refine ⟨c, s2, ?_⟩
    simp [resolveDatabase, hr, getPlatformDb, hget]
  · intro u b q s n hr hdb hn
    obtain ⟨c, s2, hget⟩ := getDb_ok s n hn
    have hjs : jsOr u.databaseName u.dbName = some n := by
      rw [hdb]
      simp [jsOr, strTruthy, hn]
    rcases hr with h | h | h <;> refine ⟨c, s2, ?_⟩ <;>
      simp [resolveDatabase, h, hjs, hget]

/-- Witness for C4 on concrete platform and client_admin credentials. -/
theorem resolver_database_names_witness :
    (∃ c s2, resolveDatabase
        (some { role := "platform_super_admin", databaseName := none,
                dbName := none }) none none cmEmpty =
      (Except.ok (c, "platform_db"), s2)) ∧
    (∃ c s2, resolveDatabase
        (some { role := "client_admin",
                databaseName := some "client_ab12cd34_db", dbName := none })
        none none cmEmpty =
      (Except.ok (c, "client_ab12cd34_db"), s2)) :=
  ⟨resolver_database_names.1
      { role := "platform_super_admin", databaseName := none, dbName := none }
      none none cmEmpty rfl,
   resolver_database_names.2
      { role := "client_admin", databaseName := some "client_ab12cd34_db",
        dbName := none }
      none none cmEmpty "client_ab12cd34_db" (Or.inl rfl) rfl (by decide)⟩

theorem initializeClientDatabaseCM_contains (s : CMState) (db : String) :
    (initializeClientDatabaseCM s db).clusterDbs.contains db = true := by
  unfold initializeClientDatabaseCM
  cases hc : s.clusterDbs.contains db with
  | false => simp [hc]
  | true =>
      simp [hc]
      simpa using hc

theorem bindOnConnection_cm (s : MFState) (c : Nat) (nm : String)
    (schema : Nat) : (bindOnConnection s c nm schema).2.cm = s.cm := by
  unfold bindOnConnection
  cases h : mget ((mget s.connModels c).getD []) nm <;> simp

/-- A successful `factoryConnection` is exactly a successful `getDb` (the
platform branch always fails). -/
theorem factoryConnection_ok (cm : CMState) (db : String) (c : Nat)
    (cm2 : CMState) (h : factoryConnection cm db = Except.ok (c, cm2)) :
    getDb cm db = Except.ok (c, cm2) := by
  unfold factoryConnection at h
  by_cases hp : db = "platform_db"
  · rw [if_pos hp] at h
    exact absurd h (by simp)
  · rw [if_neg hp] at h
    exact h

/-- A successful `getModelCore` never changes the set of physically existing
databases nor the base-collection initialization log. -/
theorem getModelCore_pres (s : MFState) (db nm : String) (schema : Nat)
    (dbModels : List (String × Nat)) (m : Nat) (s2 : MFState)
    (h : getModelCore s db nm schema dbModels = Except.ok (m, s2)) :
    s2.cm.clusterDbs = s.cm.clusterDbs ∧ s2.cm.initLog = s.cm.initLog := by
  unfold getModelCore at h
  cases hhit : mget dbModels nm with
  | some m0 =>
      rw [hhit] at h
      simp only [Except.ok.injEq, Prod.mk.injEq] at h
      obtain ⟨-, h2⟩ := h
      subst h2
      exact ⟨rfl, rfl⟩
  | none =>
      rw [hhit] at h
      cases hconn : factoryConnection s.cm db with
      | error e => rw [hconn] at h; exact absurd h (by simp)
      | ok cp =>
          have hpres : cp.2.clusterDbs = s.cm.clusterDbs ∧
              cp.2.initLog = s.cm.initLog := by
            obtain ⟨h1, h2, -⟩ := getDb_preserves s.cm db cp.1 cp.2
              (factoryConnection_ok s.cm db cp.1 cp.2 hconn)
            exact ⟨h1, h2⟩
          rw [hconn] at h
          simp only at h
          cases hbind : mget ((mget s.connModels cp.1).getD []) nm with
          | some b =>
              rw [hbind] at h
              simp only [Except.ok.injEq, Prod.mk.injEq] at h
              obtain ⟨-, h2⟩ := h
              subst h2
              exact hpres
          | none =>
              rw [hbind] at h
              simp only [Except.ok.injEq, Prod.mk.injEq] at h
              obtain ⟨-, h2⟩ := h
              subst h2
              exact hpres

/-- A successful `getModel` never changes the set of physically existing
databases nor the initialization log. -/
theorem getModel_pres (s : MFState) (db nm : String) (schema : Nat)
    (m : Nat) (s2 : MFState)
    (h : getModel s db nm schema = Except.ok (m, s2)) :
    s2.cm.clusterDbs = s.cm.clusterDbs ∧ s2.cm.initLog = s.cm.initLog := by
  unfold getModel at h
  by_cases hguard : db = "" ∨ nm = ""
  · rw [if_pos hguard] at h
    exact absurd h (by simp)
  · rw [if_neg hguard] at h
    cases hdb : mget s.modelCache db with
    | some dbModels =>
        rw [hdb] at h
        exact getModelCore_pres s db nm schema dbModels m s2 h
    | none =>
        rw [hdb] at h
        exact getModelCore_pres { s with modelCache := mset s.modelCache db [] }
          db nm schema [] m s2 h

/-- When both its cache level and the connection's registry miss,
`getModelCore` registers a fresh model on the connection and caches it. -/
theorem getModelCore_register (s : MFState) (db nm : String) (schema : Nat)
    (dbModels : List (String × Nat)) (c : Nat) (cm2 : CMState)
    (hmiss : mget dbModels nm = none)
    (hconn : factoryConnection s.cm db = Except.ok (c, cm2))
    (hbind : mget ((mget s.connModels c).getD []) nm = none) :
    getModelCore s db nm schema dbModels =
      Except.ok (s.nextModel,
        { s with cm := cm2,
                 nextModel := s.nextModel + 1,
                 connModels := mset s.connModels c
                   (mset ((mget s.connModels c).getD []) nm s.nextModel),
                 regLog := (c, nm, schema) :: s.regLog,
                 modelCache := mset s.modelCache db
                   (mset dbModels nm s.nextModel) }) := by
  unfold getModelCore
  rw [hmiss, hconn]
  simp only
  rw [hbind]

/-- `getModelCore` always succeeds for a non-empty client database name
(connection creation is total in the model; the platform branch throws). -/
theorem getModelCore_total (s : MFState) (db nm : String) (schema : Nat)
    (dbModels : List (String × Nat)) (hdb : db ≠ "")
    (hplat : db ≠ "platform_db") :
    ∃ m s2, getModelCore s db nm schema dbModels = Except.ok (m, s2) := by
  cases hhit : mget dbModels nm with
  | some m =>
      refine ⟨m, s, ?_⟩
      unfold getModelCore
      rw [hhit]
  | none =>
      have hconn : ∃ c cm2, factoryConnection s.cm db = Except.ok (c, cm2) := by
        obtain ⟨c, cm2, h⟩ := getDb_ok s.cm db hdb
        refine ⟨c, cm2, ?_⟩
        unfold factoryConnection
        rw [if_neg hplat]
        exact h
      obtain ⟨c, cm2, hc⟩ := hconn
      cases hbind : mget ((mget s.connModels c).getD []) nm with
      | some b =>
          exact ⟨b, _,
            getModelCore_reuse s db nm schema dbModels c cm2 b hhit hc hbind⟩
      | none =>
          exact ⟨s.nextModel, _,
            getModelCore_register s db nm schema dbModels c cm2 hhit hc hbind⟩

/-- `getModel` always succeeds for a non-empty client database name and a
non-empty model name. -/
theorem getModel_total (s : MFState) (db nm : String) (schema : Nat)
    (hdb : db ≠ "") (hplat : db ≠ "platform_db") (hnm : nm ≠ "") :
    ∃ m s2, getModel s db nm schema = Except.ok (m, s2) := by
  have hguard : ¬(db = "" ∨ nm = "") := by
    intro h
    rcases h with h | h
    · exact hdb h
    · exact hnm h
  unfold getModel
  rw [if_neg hguard]
  cases hdbm : mget s.modelCache db with
  | some dbModels => exact getModelCore_total s db nm schema dbModels hdb hplat
  | none => exact getModelCore_total _ db nm schema [] hdb hplat

/-- `createDatabase` always succeeds on a non-empty name; if the database
existed it changes neither the cluster nor the initialization log, and if it
did not it adds exactly that database and one initialization run; in both
cases the database exists afterwards. -/
theorem createDatabase_props (s : CMState) (db : String) (hn : db ≠ "") :
    ∃ c s2, createDatabase s db = Except.ok (c, s2) ∧
      s2.clusterDbs.contains db = true ∧
      ((databaseExists s db = true ∧ s2.clusterDbs = s.clusterDbs ∧
          s2.initLog = s.initLog) ∨
        (databaseExists s db = false ∧ s2.clusterDbs = db :: s.clusterDbs ∧
          s2.initLog = db :: s.initLog)) := by
  obtain ⟨c, s1, hget⟩ := getDb_ok s db hn
  obtain ⟨h1, h2, h3⟩ := getDb_preserves s db c s1 hget
  cases hex : databaseExists s db with
  | true =>
      refine ⟨c, s1, ?_, ?_, Or.inl ⟨rfl, h1, h2⟩⟩
      · simp [createDatabase, hex, hget]
      · rw [h1]
        simpa [databaseExists] using hex
  | false =>
      have hc : s1.clusterDbs.contains db = false := by
        rw [h1]
        simpa [databaseExists] using hex
      have hmem : db ∉ s.clusterDbs := by
        simpa [databaseExists] using hex
      refine ⟨c, initializeClientDatabaseCM s1 db, ?_, ?_, Or.inr ⟨rfl, ?_, ?_⟩⟩
      · simp [createDatabase, hex, hget]
      · exact initializeClientDatabaseCM_contains s1 db
      · simp [initializeClientDatabaseCM, h1, hmem]
      · simp [initializeClientDatabaseCM, h2]

theorem roleEnsure_contains_self (l : List String) (r : String) :
    (roleEnsure l r).contains r = true := by
  unfold roleEnsure
  cases h : l.contains r with
  | false => simp
  | true =>
      simp
      simpa using h

theorem roleEnsure_mono (l : List String) (r x : String)
    (h : l.contains x = true) : (roleEnsure l r).contains x = true := by
  unfold roleEnsure
  cases hc : l.contains r with
  | false =>
      simp
      right
      simpa using h
  | true =>
      simp
      simpa using h

theorem provRoles_contains (roles0 : List String) :
    (provRoles roles0).contains "client_admin" = true ∧
    (provRoles roles0).contains "staff" = true ∧
    (provRoles roles0).contains "customer" = true := by
  refine ⟨?_, ?_, ?_⟩
  · exact roleEnsure_mono _ _ _
      (roleEnsure_mono _ _ _ (roleEnsure_contains_self roles0 "client_admin"))
  · exact roleEnsure_mono _ _ _ (roleEnsure_contains_self _ "staff")
  · exact roleEnsure_contains_self _ "customer"

/-- Provisioning step 1 succeeds on a non-empty name, touches no platform
collection, and afterwards the database physically exists; the cluster and
initialization log change exactly when the database was new. -/
theorem provStepCreateDb_props (db : String) (st : AppState) (hn : db ≠ "") :
    ∃ st2, provStepCreateDb db st = Except.ok st2 ∧
      st2.clientAdmins = st.clientAdmins ∧ st2.dbMaps = st.dbMaps ∧
      st2.dbUsers = st.dbUsers ∧ st2.dbRoles = st.dbRoles ∧
      st2.mf.cm.clusterDbs.contains db = true ∧
      ((databaseExists st.mf.cm db = true ∧
          st2.mf.cm.clusterDbs = st.mf.cm.clusterDbs ∧
          st2.mf.cm.initLog = st.mf.cm.initLog) ∨
        (databaseExists st.mf.cm db = false ∧
          st2.mf.cm.clusterDbs = db :: st.mf.cm.clusterDbs ∧
          st2.mf.cm.initLog = db :: st.mf.cm.initLog)) := by
  obtain ⟨c, s2, hcd, hcont, hd⟩ := createDatabase_props st.mf.cm db hn
  refine ⟨{ st with mf := { st.mf with cm := s2 } }, ?_, rfl, rfl, rfl, rfl,
    hcont, hd⟩
  unfold provStepCreateDb
  rw [hcd]

/-- Preservation for step 1: whenever it succeeds, the platform collections
are untouched and the database exists afterwards. -/
theorem provStepCreateDb_pres (db : String) (st st2 : AppState)
    (h : provStepCreateDb db st = Except.ok st2) :
    st2.clientAdmins = st.clientAdmins ∧ st2.dbMaps = st.dbMaps ∧
    st2.dbUsers = st.dbUsers ∧ st2.dbRoles = st.dbRoles ∧
    st2.mf.cm.clusterDbs.contains db = true := by
  unfold provStepCreateDb at h
  cases hcd : createDatabase st.mf.cm db with
  | error e => rw [hcd] at h; exact absurd h (by simp)
  | ok cp =>
      rw [hcd] at h
      simp only [Except.ok.injEq] at h
      subst h
      refine ⟨rfl, rfl, rfl, rfl, ?_⟩
      unfold createDatabase at hcd
      cases hex : databaseExists st.mf.cm db with
      | true =>
          rw [hex] at hcd
          simp only [if_pos] at hcd
          obtain ⟨h1, -, -⟩ :=
            getDb_preserves st.mf.cm db cp.1 cp.2 hcd
          rw [h1]
          simpa [databaseExists] using hex
      | false =>
          rw [hex] at hcd
          simp only [Bool.false_eq_true, if_false] at hcd
          cases hget : getDb st.mf.cm db with
          | error e => rw [hget] at hcd; exact absurd hcd (by simp)
          | ok gp =>
              cases gp with
              | mk g1 g2 =>
                  rw [hget] at hcd
                  simp only [Except.ok.injEq] at hcd
                  rw [← hcd]
                  exact initializeClientDatabaseCM_contains g2 db

/-- Provisioning step 2 succeeds when the owner's email is new to the client
database; it touches neither the platform collections nor the cluster, and
installs the three system roles and the owner user. -/
theorem serviceInitClientDb_props (db : String) (o : OwnerData)
    (st : AppState) (hn : db ≠ "") (hplat : db ≠ "platform_db")
    (hu : ((mget st.dbUsers db).getD []).contains (strLower o.email) = false) :
    ∃ st2, serviceInitClientDb db o st = Except.ok st2 ∧
      st2.mf.cm.clusterDbs = st.mf.cm.clusterDbs ∧
      st2.mf.cm.initLog = st.mf.cm.initLog ∧
      st2.clientAdmins = st.clientAdmins ∧ st2.dbMaps = st.dbMaps ∧
      st2.dbRoles = mset st.dbRoles db
        (provRoles ((mget st.dbRoles db).getD [])) ∧
      st2.dbUsers = mset st.dbUsers db
        (strLower o.email :: (mget st.dbUsers db).getD []) := by
  obtain ⟨m1, s1, h1⟩ := getModel_total st.mf db "User" userSchemaId hn hplat
    (by decide)
  obtain ⟨hc1, hi1⟩ := getModel_pres st.mf db "User" userSchemaId m1 s1 h1
  obtain ⟨m2, s2, h2⟩ := getModel_total s1 db "Role" roleSchemaId hn hplat
    (by decide)
  obtain ⟨hc2, hi2⟩ := getModel_pres s1 db "Role" roleSchemaId m2 s2 h2
  refine ⟨{ st with
            mf := s2,
            dbRoles := mset st.dbRoles db
              (provRoles ((mget st.dbRoles db).getD [])),
            dbUsers := mset st.dbUsers db
              (strLower o.email :: (mget st.dbUsers db).getD []) },
    ?_, hc2.trans hc1, hi2.trans hi1, rfl, rfl, rfl, rfl⟩
  have hmem : strLower o.email ∉ (mget st.dbUsers db).getD [] := by
    simpa using hu
  unfold serviceInitClientDb
  rw [h1]
  simp only
  rw [h2]
  simp [provRoles, hmem]

/-- Preservation for step 2: whenever it succeeds, the platform collections
and the cluster are untouched, and the client database gained exactly the
system roles and the owner user. -/
theorem serviceInitClientDb_pres (db : String) (o : OwnerData)
    (st st2 : AppState) (h : serviceInitClientDb db o st = Except.ok st2) :
    st2.clientAdmins = st.clientAdmins ∧ st2.dbMaps = st.dbMaps ∧
    st2.mf.cm.clusterDbs = st.mf.cm.clusterDbs ∧
    st2.dbRoles = mset st.dbRoles db
      (provRoles ((mget st.dbRoles db).getD [])) ∧
    st2.dbUsers = mset st.dbUsers db
      (strLower o.email :: (mget st.dbUsers db).getD []) := by
  unfold serviceInitClientDb at h
  cases h1 : getModel st.mf db "User" userSchemaId with
  | error e => rw [h1] at h; exact absurd h (by simp)
  | ok up =>
      rw [h1] at h
      simp only at h
      cases h2 : getModel up.2 db "Role" roleSchemaId with
      | error e => rw [h2] at h; exact absurd h (by simp)
      | ok rp =>
          rw [h2] at h
          simp only at h
          by_cases hu :
              ((mget st.dbUsers db).getD []).contains (strLower o.email) = true
          · rw [if_pos hu] at h
            exact absurd h (by simp)
          · rw [if_neg hu] at h
            simp only [Except.ok.injEq] at h
            subst h
            obtain ⟨hc1, -⟩ :=
              getModel_pres st.mf db "User" userSchemaId up.1 up.2 h1
            obtain ⟨hc2, -⟩ :=
              getModel_pres up.2 db "Role" roleSchemaId rp.1 rp.2 h2
            exact ⟨rfl, rfl, hc2.trans hc1, rfl, rfl⟩

/-- Faithful step 3 always throws the TypeError of `getClientAdminModel`
(missing await), leaving the state untouched: `ClientAdmin.create` never
runs. -/
theorem provStepWriteClientAdmin_typeError (cid db : String) (o : OwnerData)
    (st : AppState) :
    provStepWriteClientAdmin cid db o st =
      Except.error
        (AppError.typeError
          "Cannot read properties of undefined (reading ClientAdmin)") := rfl

/-- Faithful step 4 always throws the TypeError of
`getClientDatabaseMapModel` (missing await), leaving the state untouched:
`ClientDatabaseMap.create` never runs. -/
theorem provStepWriteDbMap_typeError (cid db : String) (st : AppState) :
    provStepWriteDbMap cid db st =
      Except.error
        (AppError.typeError
          "Cannot read properties of undefined (reading ClientDatabaseMap)") :=
  rfl

/-- Preservation for as-if-awaited step 3: whenever it succeeds, it appends
exactly one ClientAdmin record and touches nothing else observable. -/
theorem provStepWriteClientAdminAwaited_pres (cid db : String) (o : OwnerData)
    (st st2 : AppState)
    (h : provStepWriteClientAdminAwaited cid db o st = Except.ok st2) :
    st2.clientAdmins =
      { clientId := cid, databaseName := db, email := strLower o.email } ::
        st.clientAdmins ∧
    st2.dbMaps = st.dbMaps ∧ st2.dbUsers = st.dbUsers ∧
    st2.dbRoles = st.dbRoles ∧
    st2.mf.cm.clusterDbs = st.mf.cm.clusterDbs := by
  unfold provStepWriteClientAdminAwaited at h
  cases hp : getPlatformDb st.mf.cm with
  | error e => rw [hp] at h; exact absurd h (by simp)
  | ok cp =>
      rw [hp] at h
      simp only at h
      obtain ⟨hcl, -, -⟩ := getDb_preserves st.mf.cm "platform_db" cp.1 cp.2 hp
      unfold clientAdminCreate at h
      by_cases he : ({ st with mf := (bindOnConnection
          { st.mf with cm := cp.2 } cp.1 "ClientAdmin"
          clientAdminSchemaId).2 } : AppState).clientAdmins.any
          (fun a => a.email = strLower o.email) = true
      · rw [if_pos he] at h
        exact absurd h (by simp)
      · rw [if_neg he] at h
        by_cases hd : ({ st with mf := (bindOnConnection
            { st.mf with cm := cp.2 } cp.1 "ClientAdmin"
            clientAdminSchemaId).2 } : AppState).clientAdmins.any
            (fun a => a.databaseName = db) = true
        · rw [if_pos hd] at h
          exact absurd h (by simp)
        · rw [if_neg hd] at h
          by_cases hcid : ({ st with mf := (bindOnConnection
              { st.mf with cm := cp.2 } cp.1 "ClientAdmin"
              clientAdminSchemaId).2 } : AppState).clientAdmins.any
              (fun a => a.clientId = cid) = true
          · rw [if_pos hcid] at h
            exact absurd h (by simp)
          · rw [if_neg hcid] at h
            simp only [Except.ok.injEq] at h
            subst h
            refine ⟨rfl, rfl, rfl, rfl, ?_⟩
            rw [bindOnConnection_cm]
            exact hcl

/-- Preservation for as-if-awaited step 4: whenever it succeeds, it appends
exactly one mapping record and touches nothing else observable. -/
theorem provStepWriteDbMapAwaited_pres (cid db : String) (st st2 : AppState)
    (h : provStepWriteDbMapAwaited cid db st = Except.ok st2) :
    st2.dbMaps = { clientId := cid, databaseName := db } :: st.dbMaps ∧
    st2.clientAdmins = st.clientAdmins ∧ st2.dbUsers = st.dbUsers ∧
    st2.dbRoles = st.dbRoles ∧
    st2.mf.cm.clusterDbs = st.mf.cm.clusterDbs := by
  unfold provStepWriteDbMapAwaited at h
  cases hp : getPlatformDb st.mf.cm with
  | error e => rw [hp] at h; exact absurd h (by simp)
  | ok cp =>
      rw [hp] at h
      simp only at h
      obtain ⟨hcl, -, -⟩ := getDb_preserves st.mf.cm "platform_db" cp.1 cp.2 hp
      unfold dbMapCreate at h
      by_cases hm1 : ({ st with mf := (bindOnConnection
          { st.mf with cm := cp.2 } cp.1 "ClientDatabaseMap"
          clientDbMapSchemaId).2 } : AppState).dbMaps.any
          (fun r => r.clientId = cid) = true
      · rw [if_pos hm1] at h
        exact absurd h (by simp)
      · rw [if_neg hm1] at h
        by_cases hm2 : ({ st with mf := (bindOnConnection
            { st.mf with cm := cp.2 } cp.1 "ClientDatabaseMap"
            clientDbMapSchemaId).2 } : AppState).dbMaps.any
            (fun r => r.databaseName = db) = true
        · rw [if_pos hm2] at h
          exact absurd h (by simp)
        · rw [if_neg hm2] at h
          simp only [Except.ok.injEq] at h
          subst h
          refine ⟨rfl, rfl, rfl, rfl, ?_⟩
          rw [bindOnConnection_cm]
          exact hcl

/--
Claim C8: the tenantId→databaseName mapping write is the last provisioning
step.  Running any prefix of the provisioning step sequence (i.e. failing at
any point), starting from a platform state with no mapping for the new name:
(1) if afterwards a mapping record for the name exists, the database is fully
initialized (physically exists with its system roles and the owner account) —
no discoverable mapping ever points at a half-initialized database; and
(2) through the first three steps no mapping record for the run appears at
all.
-/
theorem mapping_write_is_last_step (cid db : String) (o : OwnerData)
    (st : AppState) (k : Nat)
    (hfresh : st.dbMaps.any (fun r => r.databaseName = db) = false) :
    ((runProvStepsAwaited cid db o (provSteps.take k) st).1.dbMaps.any
        (fun r => r.databaseName = db) = true →
      fullyInitialized (runProvStepsAwaited cid db o (provSteps.take k) st).1 db o) ∧
    (k ≤ 3 →
      (runProvStepsAwaited cid db o (provSteps.take k) st).1.dbMaps = st.dbMaps) := by
  have habs : ∀ st2 : AppState, st2.dbMaps = st.dbMaps →
      st2.dbMaps.any (fun r => r.databaseName = db) = true → False := by
    intro st2 he hmap
    rw [he, hfresh] at hmap
    exact absurd hmap (by decide)
  rcases k with _ | _ | _ | _ | n
  · have hrun : runProvStepsAwaited cid db o (provSteps.take 0) st = (st, none) := rfl
    rw [hrun]
    exact ⟨fun hmap => (habs st rfl hmap).elim, fun _ => rfl⟩
  · cases h1 : provStepCreateDb db st with
    | error e =>
        have hrun : runProvStepsAwaited cid db o (provSteps.take 1) st =
            (st, some e) := by
          simp only [show provSteps.take 1 = [ProvStep.createDb] from rfl,
            runProvStepsAwaited, runProvStepAwaited, h1]
        rw [hrun]
        exact ⟨fun hmap => (habs st rfl hmap).elim, fun _ => rfl⟩
    | ok st1 =>
        obtain ⟨-, hm1, -, -, -⟩ := provStepCreateDb_pres db st st1 h1
        have hrun : runProvStepsAwaited cid db o (provSteps.take 1) st =
            (st1, none) := by
          simp only [show provSteps.take 1 = [ProvStep.createDb] from rfl,
            runProvStepsAwaited, runProvStepAwaited, h1]
        rw [hrun]
        exact ⟨fun hmap => (habs st1 hm1 hmap).elim, fun _ => hm1⟩
  · have ht : provSteps.take 2 =
        [ProvStep.createDb, ProvStep.initClientDb] := rfl
    cases h1 : provStepCreateDb db st with
    | error e =>
        have hrun : runProvStepsAwaited cid db o (provSteps.take 2) st =
            (st, some e) := by
          simp only [ht, runProvStepsAwaited, runProvStepAwaited, h1]
        rw [hrun]
        exact ⟨fun hmap => (habs st rfl hmap).elim, fun _ => rfl⟩
    | ok st1 =>
        obtain ⟨-, hm1, -, -, -⟩ := provStepCreateDb_pres db st st1 h1
        cases h2 : serviceInitClientDb db o st1 with
        | error e =>
            have hrun : runProvStepsAwaited cid db o (provSteps.take 2) st =
                (st1, some e) := by
              simp only [ht, runProvStepsAwaited, runProvStepAwaited, h1, h2]
            rw [hrun]
            exact ⟨fun hmap => (habs st1 hm1 hmap).elim, fun _ => hm1⟩
        | ok st2 =>
            obtain ⟨-, hm2, -, -, -⟩ := serviceInitClientDb_pres db o st1 st2 h2
            have hrun : runProvStepsAwaited cid db o (provSteps.take 2) st =
                (st2, none) := by
              simp only [ht, runProvStepsAwaited, runProvStepAwaited, h1, h2]
            rw [hrun]
            exact ⟨fun hmap => (habs st2 (hm2.trans hm1) hmap).elim,
              fun _ => hm2.trans hm1⟩
  · have ht : provSteps.take 3 =
        [ProvStep.createDb, ProvStep.initClientDb,
          ProvStep.writeClientAdmin] := rfl
    cases h1 : provStepCreateDb db st with
    | error e =>
        have hrun : runProvStepsAwaited cid db o (provSteps.take 3) st =
            (st, some e) := by
          simp only [ht, runProvStepsAwaited, runProvStepAwaited, h1]
        rw [hrun]
        exact ⟨fun hmap => (habs st rfl hmap).elim, fun _ => rfl⟩
    | ok st1 =>
        obtain ⟨-, hm1, -, -, -⟩ := provStepCreateDb_pres db st st1 h1
        cases h2 : serviceInitClientDb db o st1 with
        | error e =>
            have hrun : runProvStepsAwaited cid db o (provSteps.take 3) st =
                (st1, some e) := by
              simp only [ht, runProvStepsAwaited, runProvStepAwaited, h1, h2]
            rw [hrun]
            exact ⟨fun hmap => (habs st1 hm1 hmap).elim, fun _ => hm1⟩
        | ok st2 =>
            obtain ⟨-, hm2, -, -, -⟩ := serviceInitClientDb_pres db o st1 st2 h2
            cases h3 : provStepWriteClientAdminAwaited cid db o st2 with
            | error e =>
                have hrun : runProvStepsAwaited cid db o (provSteps.take 3) st =
                    (st2, some e) := by
                  simp only [ht, runProvStepsAwaited, runProvStepAwaited, h1, h2, h3]
                rw [hrun]
                exact ⟨fun hmap => (habs st2 (hm2.trans hm1) hmap).elim,
                  fun _ => hm2.trans hm1⟩
            | ok st3 =>
                obtain ⟨-, hm3, -, -, -⟩ :=
                  provStepWriteClientAdminAwaited_pres cid db o st2 st3 h3
                have hrun : runProvStepsAwaited cid db o (provSteps.take 3) st =
                    (st3, none) := by
                  simp only [ht, runProvStepsAwaited, runProvStepAwaited, h1, h2, h3]
                rw [hrun]
                exact ⟨fun hmap =>
                  (habs st3 ((hm3.trans hm2).trans hm1) hmap).elim,
                  fun _ => (hm3.trans hm2).trans hm1⟩
  · have ht : provSteps.take (n + 4) = provSteps := by
      apply List.take_of_length_le
      show provSteps.length ≤ n + 4
      have h4 : provSteps.length = 4 := rfl
      omega
    cases h1 : provStepCreateDb db st with
    | error e =>
        have hrun : runProvStepsAwaited cid db o (provSteps.take (n + 4)) st =
            (st, some e) := by
          rw [ht]
          simp only [provSteps, runProvStepsAwaited, runProvStepAwaited, h1]
        rw [hrun]
        exact ⟨fun hmap => (habs st rfl hmap).elim,
          fun hk => absurd hk (by omega)⟩
    | ok st1 =>
        obtain pres1 := provStepCreateDb_pres db st st1 h1
        cases h2 : serviceInitClientDb db o st1 with
        | error e =>
            have hrun : runProvStepsAwaited cid db o (provSteps.take (n + 4)) st =
                (st1, some e) := by
              rw [ht]
              simp only [provSteps, runProvStepsAwaited, runProvStepAwaited, h1, h2]
            rw [hrun]
            exact ⟨fun hmap => (habs st1 pres1.2.1 hmap).elim,
              fun hk => absurd hk (by omega)⟩
        | ok st2 =>
            obtain pres2 := serviceInitClientDb_pres db o st1 st2 h2
            cases h3 : provStepWriteClientAdminAwaited cid db o st2 with
            | error e =>
                have hrun : runProvStepsAwaited cid db o (provSteps.take (n + 4)) st =
                    (st2, some e) := by
                  rw [ht]
                  simp only [provSteps, runProvStepsAwaited, runProvStepAwaited, h1, h2, h3]
                rw [hrun]
                exact ⟨fun hmap =>
                  (habs st2 (pres2.2.1.trans pres1.2.1) hmap).elim,
                  fun hk => absurd hk (by omega)⟩
            | ok st3 =>
                obtain pres3 := provStepWriteClientAdminAwaited_pres cid db o st2 st3 h3
                cases h4 : provStepWriteDbMapAwaited cid db st3 with
                | error e =>
                    have hrun : runProvStepsAwaited cid db o
                        (provSteps.take (n + 4)) st = (st3, some e) := by
                      rw [ht]
                      simp only [provSteps, runProvStepsAwaited, runProvStepAwaited, h1, h2,
                        h3, h4]
                    rw [hrun]
                    exact ⟨fun hmap =>
                      (habs st3 ((pres3.2.1.trans pres2.2.1).trans pres1.2.1)
                        hmap).elim,
                      fun hk => absurd hk (by omega)⟩
                | ok st4 =>
                    obtain pres4 := provStepWriteDbMapAwaited_pres cid db st3 st4 h4
                    have hrun : runProvStepsAwaited cid db o
                        (provSteps.take (n + 4)) st = (st4, none) := by
                      rw [ht]
                      simp only [provSteps, runProvStepsAwaited, runProvStepAwaited, h1, h2,
                        h3, h4]
                    rw [hrun]
                    constructor
                    · intro hmap
                      unfold fullyInitialized
                      refine ⟨?_, ?_, ?_, ?_, ?_⟩
                      · show st4.mf.cm.clusterDbs.contains db = true
                        rw [pres4.2.2.2.2, pres3.2.2.2.2, pres2.2.2.1]
                        exact pres1.2.2.2.2
                      · show ((mget st4.dbRoles db).getD []).contains
                            "client_admin" = true
                        rw [pres4.2.2.2.1, pres3.2.2.2.1, pres2.2.2.2.1,
                          mget_mset]
                        simp only [Option.getD_some]
                        exact (provRoles_contains _).1
                      · show ((mget st4.dbRoles db).getD []).contains
                            "staff" = true
                        rw [pres4.2.2.2.1, pres3.2.2.2.1, pres2.2.2.2.1,
                          mget_mset]
                        simp only [Option.getD_some]
                        exact (provRoles_contains _).2.1
                      · show ((mget st4.dbRoles db).getD []).contains
                            "customer" = true
                        rw [pres4.2.2.2.1, pres3.2.2.2.1, pres2.2.2.2.1,
                          mget_mset]
                        simp only [Option.getD_some]
                        exact (provRoles_contains _).2.2
                      · show ((mget st4.dbUsers db).getD []).contains
                            (strLower o.email) = true
                        rw [pres4.2.2.1, pres3.2.2.1, pres2.2.2.2.2, mget_mset]
                        simp
                    · intro hk
                      exact absurd hk (by omega)

/-- Witness for C8: the full provisioning run (prefix length 4) from an empty
platform state produces a mapping record, and indeed leaves the client
database fully initialized. -/
theorem mapping_write_is_last_step_witness :
    fullyInitialized
      (runProvStepsAwaited "cid1" "client_aa11_db"
        { email := "Owner@X.com", firstName := "A", lastName := "B",
          phone := "1", password := "p" }
        (provSteps.take 4)
        { mf := mfEmpty, clientAdmins := [], dbMaps := [], dbUsers := [],
          dbRoles := [] }).1
      "client_aa11_db"
      { email := "Owner@X.com", firstName := "A", lastName := "B",
        phone := "1", password := "p" } :=
  (mapping_write_is_last_step "cid1" "client_aa11_db"
    { email := "Owner@X.com", firstName := "A", lastName := "B",
      phone := "1", password := "p" }
    { mf := mfEmpty, clientAdmins := [], dbMaps := [], dbUsers := [],
      dbRoles := [] } 4 rfl).1 (by decide)

theorem genDbName_ne_empty (hex : String) : generateDatabaseName hex ≠ "" := by
  intro h
  have hl := congrArg String.length h
  rw [generateDatabaseName] at hl
  rw [String.length_append, String.length_append] at hl
  have h7 : "client_".length = 7 := rfl
  have h3 : "_db".length = 3 := rfl
  have h0 : "".length = 0 := rfl
  rw [h7, h3, h0] at hl
  omega

theorem genDbName_ne_platform (hex : String) :
    generateDatabaseName hex ≠ "platform_db" := by
  intro h
  have hd := congrArg String.data h
  rw [generateDatabaseName] at hd
  rw [String.data_append, String.data_append] at hd
  have hc : "client_".data = ['c', 'l', 'i', 'e', 'n', 't', '_'] := rfl
  have hp : "platform_db".data =
      ['p', 'l', 'a', 't', 'f', 'o', 'r', 'm', '_', 'd', 'b'] := rfl
  rw [hc, hp] at hd
  simp at hd

/--
Claim C3 counterexample: the resolver's no-user branch passes a caller-
supplied body databaseName straight to `getDb` with no `databaseExists`
check — on an empty cluster (where the existence check would say false), the
request succeeds and a connection for the unvalidated name is created and
cached.
-/
theorem unvalidated_name_creates_connection :
    databaseExists cmEmpty "evil_db" = false ∧
    (resolveDatabase none (some "evil_db") none cmEmpty).1 =
      Except.ok (0, "evil_db") ∧
    (resolveDatabase none (some "evil_db") none cmEmpty).2.connections =
      [("evil_db", 0)] :=
  ⟨rfl, rfl, rfl⟩

/--
Claim C3 amended: only `registerCustomer` validates a caller-supplied
database name against the registry's existence check before trusting it — a
name failing `databaseExists` is rejected with `NotFoundError` before any
`getDb` call (state unchanged); the resolver's no-user branch performs no
such check and passes any non-empty body name straight to `getDb`.
-/
theorem registerCustomer_validates_name :
    (∀ e p ph f l d st (em pv phv fv lv dbv : String),
      strTruthy e = some em → strTruthy p = some pv →
      strTruthy ph = some phv → strTruthy f = some fv →
      strTruthy l = some lv → strTruthy d = some dbv →
      databaseExists st.mf.cm dbv = false →
      registerCustomer e p ph f l d st =
        (Except.error (AppError.notFoundError "Client database"), st)) ∧
    (∀ s n, n ≠ "" →
      ∃ c s2, resolveNoUser (some n) none s = (Except.ok (c, n), s2)) := by
  constructor
  · intro e p ph f l d st em pv phv fv lv dbv h1 h2 h3 h4 h5 h6 hx
    unfold registerCustomer
    rw [h1, h2, h3, h4, h5, h6]
    simp only
    rw [if_pos hx]
  · intro s n hn
    obtain ⟨c, s2, hget⟩ := getDb_ok s n hn
    refine ⟨c, s2, ?_⟩
    simp [resolveNoUser, jsOr, strTruthy, hn, hget]

/-- Witness for the amended C3 statement: a signup naming a database absent
from the cluster is rejected with state unchanged, while the resolver's
no-user branch hands the same unvalidated name a live connection. -/
theorem registerCustomer_validates_name_witness :
    registerCustomer (some "a@b.c") (some "pw") (some "1") (some "A")
        (some "B") (some "ghost_db") appEmpty =
      (Except.error (AppError.notFoundError "Client database"), appEmpty) ∧
    (∃ c s2, resolveNoUser (some "ghost_db") none cmEmpty =
      (Except.ok (c, "ghost_db"), s2)) :=
  ⟨registerCustomer_validates_name.1 (some "a@b.c") (some "pw") (some "1")
      (some "A") (some "B") (some "ghost_db") appEmpty
      "a@b.c" "pw" "1" "A" "B" "ghost_db" rfl rfl rfl rfl rfl rfl rfl,
   registerCustomer_validates_name.2 cmEmpty "ghost_db" (by decide)⟩

/--
Claim C6 counterexample: provisioning with a generated identifier that
collides with an existing database name neither retries nor raises
`ProvisioningFailed` — the run proceeds under the colliding name, silently
attaches to the pre-existing database and seeds the owner account into it,
and then dies with the TypeError of `getClientAdminModel` (missing await),
never any collision-related error.
-/
theorem provision_collision_counterexample :
    databaseExists appCol.mf.cm (generateDatabaseName "aa11") = true ∧
    (createClientDatabase "cid1" "aa11" ownerEx appCol).2 =
      some (AppError.typeError
        "Cannot read properties of undefined (reading ClientAdmin)") ∧
    (createClientDatabase "cid1" "aa11" ownerEx appCol).1.1 =
      generateDatabaseName "aa11" ∧
    (createClientDatabase "cid1" "aa11" ownerEx appCol).1.2.mf.cm.clusterDbs =
      appCol.mf.cm.clusterDbs ∧
    (mget (createClientDatabase "cid1" "aa11" ownerEx appCol).1.2.dbUsers
        (generateDatabaseName "aa11")).getD [] = [strLower ownerEx.email] :=
  ⟨rfl, by decide, rfl, by decide, by decide⟩

/--
Claim C6 amended: identifier collisions are not retried and never raise
`ProvisioningFailed`: when the generated name already exists in the cluster,
`createDatabase` silently returns a connection to the existing database,
skipping base-collection initialization (initialization log unchanged) and
creating no new database (cluster unchanged); the run then seeds the owner
account into the pre-existing database and aborts with the TypeError of
`getClientAdminModel` (missing await on `getPlatformDb`), which every
provisioning run throws — so no collision is ever detected or reported.
-/
theorem provision_collision_silently_attaches (cid hex : String)
    (o : OwnerData) (st : AppState)
    (hcol : databaseExists st.mf.cm (generateDatabaseName hex) = true)
    (hu : ((mget st.dbUsers (generateDatabaseName hex)).getD []).contains
      (strLower o.email) = false) :
    ∃ st2, createClientDatabase cid hex o st =
        ((generateDatabaseName hex, st2),
          some (AppError.typeError
            "Cannot read properties of undefined (reading ClientAdmin)")) ∧
      st2.mf.cm.clusterDbs = st.mf.cm.clusterDbs ∧
      st2.mf.cm.initLog = st.mf.cm.initLog ∧
      st2.clientAdmins = st.clientAdmins ∧
      st2.dbMaps = st.dbMaps ∧
      st2.dbUsers = mset st.dbUsers (generateDatabaseName hex)
        (strLower o.email ::
          (mget st.dbUsers (generateDatabaseName hex)).getD []) := by
  have hne := genDbName_ne_empty hex
  have hplat := genDbName_ne_platform hex
  obtain ⟨st1, e1, hca1, hdm1, hdu1, hdr1, -, hdisj⟩ :=
    provStepCreateDb_props (generateDatabaseName hex) st hne
  rcases hdisj with ⟨-, hcl1, hil1⟩ | ⟨hxf, -, -⟩
  · obtain ⟨st2, e2, hcl2, hil2, hca2, hdm2, hdr2, hdu2⟩ :=
      serviceInitClientDb_props (generateDatabaseName hex) o st1 hne hplat
        (by rw [hdu1]; exact hu)
    have e3 := provStepWriteClientAdmin_typeError cid
      (generateDatabaseName hex) o st2
    refine ⟨st2, ?_, ?_, ?_, ?_, ?_, ?_⟩
    · simp only [createClientDatabase, provSteps, runProvSteps, runProvStep,
        e1, e2, e3]
    · rw [hcl2, hcl1]
    · rw [hil2, hil1]
    · rw [hca2, hca1]
    · rw [hdm2, hdm1]
    · rw [hdu2, hdu1]
  · rw [hcol] at hxf
    exact absurd hxf (by decide)

/-- Witness for the amended C6 statement on the colliding concrete state. -/
theorem provision_collision_silently_attaches_witness :
    ∃ st2, createClientDatabase "cid1" "aa11" ownerEx appCol =
        ((generateDatabaseName "aa11", st2),
          some (AppError.typeError
            "Cannot read properties of undefined (reading ClientAdmin)")) ∧
      st2.mf.cm.clusterDbs = appCol.mf.cm.clusterDbs ∧
      st2.mf.cm.initLog = appCol.mf.cm.initLog ∧
      st2.clientAdmins = appCol.clientAdmins ∧
      st2.dbMaps = appCol.dbMaps ∧
      st2.dbUsers = mset appCol.dbUsers (generateDatabaseName "aa11")
        (strLower ownerEx.email ::
          (mget appCol.dbUsers (generateDatabaseName "aa11")).getD []) :=
  provision_collision_silently_attaches "cid1" "aa11" ownerEx appCol rfl rfl

/--
Claim C7 counterexample: provisioning twice with the same owner email from an
empty platform state never reaches the unique-index check on
`ClientAdmin.email` — both calls die first with the TypeError of
`getClientAdminModel` (missing await), so no duplicate-key violation is ever
raised and zero ClientAdmin and mapping records exist; yet both calls have
already created and seeded their physical databases, so the cluster holds
two databases.
-/
theorem provision_twice_counterexample :
    (createClientDatabase "cid1" "aaaa" ownerEx appEmpty).2 =
      some (AppError.typeError
        "Cannot read properties of undefined (reading ClientAdmin)") ∧
    (createClientDatabase "cid2" "bbbb" ownerEx
        (createClientDatabase "cid1" "aaaa" ownerEx appEmpty).1.2).2 =
      some (AppError.typeError
        "Cannot read properties of undefined (reading ClientAdmin)") ∧
    (createClientDatabase "cid2" "bbbb" ownerEx
        (createClientDatabase "cid1" "aaaa" ownerEx
          appEmpty).1.2).1.2.mf.cm.clusterDbs =
      ["client_bbbb_db", "client_aaaa_db"] ∧
    (createClientDatabase "cid2" "bbbb" ownerEx
        (createClientDatabase "cid1" "aaaa" ownerEx
          appEmpty).1.2).1.2.clientAdmins = [] ∧
    (createClientDatabase "cid2" "bbbb" ownerEx
        (createClientDatabase "cid1" "aaaa" ownerEx
          appEmpty).1.2).1.2.dbMaps = [] :=
  ⟨by decide, by decide, by decide, by decide, by decide⟩

/--
Claim C7 amended: provisioning twice with the same owner email never raises
a duplicate-key uniqueness violation, because neither call reaches
`ClientAdmin.create`: both abort with the TypeError of `getClientAdminModel`
(missing await on `getPlatformDb`).  No ClientAdmin record and no mapping
record is ever written — yet each call has already created and seeded a
physical database before dying, so two unreferenced physical databases
exist afterwards.
-/
theorem provision_twice_no_unique_violation (cid1 cid2 hex1 hex2 : String)
    (o : OwnerData) (st : AppState)
    (hne12 : generateDatabaseName hex1 ≠ generateDatabaseName hex2)
    (hx1 : databaseExists st.mf.cm (generateDatabaseName hex1) = false)
    (hx2 : databaseExists st.mf.cm (generateDatabaseName hex2) = false)
    (hu1 : ((mget st.dbUsers (generateDatabaseName hex1)).getD []).contains
      (strLower o.email) = false)
    (hu2 : ((mget st.dbUsers (generateDatabaseName hex2)).getD []).contains
      (strLower o.email) = false) :
    ∃ st2, createClientDatabase cid1 hex1 o st =
        ((generateDatabaseName hex1, st2),
          some (AppError.typeError
            "Cannot read properties of undefined (reading ClientAdmin)")) ∧
      st2.mf.cm.clusterDbs =
        generateDatabaseName hex1 :: st.mf.cm.clusterDbs ∧
      st2.clientAdmins = st.clientAdmins ∧
      st2.dbMaps = st.dbMaps ∧
      ∃ stF, createClientDatabase cid2 hex2 o st2 =
          ((generateDatabaseName hex2, stF),
            some (AppError.typeError
              "Cannot read properties of undefined (reading ClientAdmin)")) ∧
        stF.mf.cm.clusterDbs = generateDatabaseName hex2 ::
          generateDatabaseName hex1 :: st.mf.cm.clusterDbs ∧
        stF.clientAdmins = st.clientAdmins ∧
        stF.dbMaps = st.dbMaps := by
  have hne1 := genDbName_ne_empty hex1
  have hne2 := genDbName_ne_empty hex2
  have hplat1 := genDbName_ne_platform hex1
  have hplat2 := genDbName_ne_platform hex2
  obtain ⟨st1, e1, hca1, hdm1, hdu1, hdr1, -, hdisj⟩ :=
    provStepCreateDb_props (generateDatabaseName hex1) st hne1
  rcases hdisj with ⟨hxt, -, -⟩ | ⟨-, hcl1, -⟩
  · rw [hx1] at hxt
    exact absurd hxt (by decide)
  · obtain ⟨st2, e2, hcl2, hil2, hca2, hdm2, hdr2, hdu2⟩ :=
      serviceInitClientDb_props (generateDatabaseName hex1) o st1 hne1 hplat1
        (by rw [hdu1]; exact hu1)
    have e3 := provStepWriteClientAdmin_typeError cid1
      (generateDatabaseName hex1) o st2
    have hcl2s : st2.mf.cm.clusterDbs =
        generateDatabaseName hex1 :: st.mf.cm.clusterDbs := by
      rw [hcl2, hcl1]
    have hca2s : st2.clientAdmins = st.clientAdmins := by rw [hca2, hca1]
    have hdm2s : st2.dbMaps = st.dbMaps := by rw [hdm2, hdm1]
    have hdu2s : st2.dbUsers = mset st.dbUsers (generateDatabaseName hex1)
        (strLower o.email ::
          (mget st.dbUsers (generateDatabaseName hex1)).getD []) := by
      rw [hdu2, hdu1]
    refine ⟨st2, ?_, hcl2s, hca2s, hdm2s, ?_⟩
    · simp only [createClientDatabase, provSteps, runProvSteps, runProvStep,
        e1, e2, e3]
    · have hx2n : databaseExists st2.mf.cm (generateDatabaseName hex2) =
          false := by
        have hne21 := Ne.symm hne12
        unfold databaseExists
        rw [hcl2s]
        simp only [List.contains_cons, Bool.or_eq_false_iff]
        constructor
        · simpa using hne21
        · simpa [databaseExists] using hx2
      obtain ⟨st5, f1, gca1, gdm1, gdu1, gdr1, -, gdisj⟩ :=
        provStepCreateDb_props (generateDatabaseName hex2) st2 hne2
      rcases gdisj with ⟨gxt, -, -⟩ | ⟨-, gcl1, -⟩
      · rw [hx2n] at gxt
        exact absurd gxt (by decide)
      · obtain ⟨st6, f2, gcl2, gil2, gca2, gdm2, gdr2, gdu2⟩ :=
          serviceInitClientDb_props (generateDatabaseName hex2) o st5 hne2
            hplat2
            (by
              rw [gdu1, hdu2s,
                mget_mset_ne st.dbUsers (generateDatabaseName hex1)
                  (generateDatabaseName hex2) _ hne12]
              exact hu2)
        have f3 := provStepWriteClientAdmin_typeError cid2
          (generateDatabaseName hex2) o st6
        refine ⟨st6, ?_, ?_, ?_, ?_⟩
        · simp only [createClientDatabase, provSteps, runProvSteps,
            runProvStep, f1, f2, f3]
        · rw [gcl2, gcl1, hcl2s]
        · rw [gca2, gca1, hca2s]
        · rw [gdm2, gdm1, hdm2s]

/-- Witness for the amended C7 statement on a concrete double run from the
empty platform state. -/
theorem provision_twice_no_unique_violation_witness :
    ∃ st2, createClientDatabase "cid1" "aaaa" ownerEx appEmpty =
        ((generateDatabaseName "aaaa", st2),
          some (AppError.typeError
            "Cannot read properties of undefined (reading ClientAdmin)")) ∧
      st2.mf.cm.clusterDbs =
        generateDatabaseName "aaaa" :: appEmpty.mf.cm.clusterDbs ∧
      st2.clientAdmins = appEmpty.clientAdmins ∧
      st2.dbMaps = appEmpty.dbMaps ∧
      ∃ stF, createClientDatabase "cid2" "bbbb" ownerEx st2 =
          ((generateDatabaseName "bbbb", stF),
            some (AppError.typeError
              "Cannot read properties of undefined (reading ClientAdmin)")) ∧
        stF.mf.cm.clusterDbs = generateDatabaseName "bbbb" ::
          generateDatabaseName "aaaa" :: appEmpty.mf.cm.clusterDbs ∧
        stF.clientAdmins = appEmpty.clientAdmins ∧
        stF.dbMaps = appEmpty.dbMaps :=
  provision_twice_no_unique_violation "cid1" "cid2" "aaaa" "bbbb" ownerEx
    appEmpty (by decide) rfl rfl rfl rfl

/-- Witness for the amended C5 statement at concrete states. -/
theorem getDb_single_flight_after_settle_witness :
    (∃ s2, runSched "db_x" [0, 0] ([TState.start], cmEmpty) =
        ([TState.done cmEmpty.nextId], s2) ∧
      s2.nextId = cmEmpty.nextId + 1 ∧
      mget s2.connections "db_x" = some cmEmpty.nextId) ∧
    threadStep "a_db" cmOne TState.start = (TState.done 0, cmOne) :=
  ⟨getDb_single_flight_after_settle.1 cmEmpty "db_x" (by decide) (by decide),
   getDb_single_flight_after_settle.2 cmOne "a_db" 0 (by decide)⟩

end BookACut
